import Mathlib

/-!
Verification of the object-storage adapter (`src/storages/object-storage/src/lib.rs`)
of the gluesql repository.

The adapter's pure logic is embedded as executable Lean definitions.  All I/O
performed through the opendal connection (stat, create_dir, read) is abstracted
by passing the *outcome* of each call as a parameter: the adapter code only
branches on these outcomes.  Engine code that lives outside this crate
(the row-key codec `Key::to_cmp_be_bytes`, `Schema::from_ddl`,
`endpoint_resolver`) is modelled from the specification, as marked in the
corresponding doc comments.
-/

/-- Lowercase hex digit for a nibble value `n < 16`, as produced by the hex
crate's `encode_hex::<String>()` (lowercase alphabet `0-9a-f`). -/
def hexDigit (n : Nat) : Char :=
  if n < 10 then Char.ofNat (48 + n) else Char.ofNat (87 + n)

/-- Hex encoding of one byte: high nibble first, then low nibble. -/
def byteHex (b : Fin 256) : List Char :=
  [hexDigit (b.val / 16), hexDigit (b.val % 16)]

/-- `encode_hex::<String>()` on a byte sequence (lib.rs line 106):
lowercase hex, two characters per byte, in byte order. -/
def encode_hex (bs : List (Fin 256)) : List Char :=
  (bs.map byteHex).flatten

/-- Modelled from the spec: the engine-supplied row key type is not under
`src/`.  Per the data model, a key is "an opaque, totally-ordered key value"
that either has a canonical order-preserving big-endian byte form or is a
malformed/unsupported variant for which encoding fails. -/
inductive Key where
  | bytea (bs : List (Fin 256)) : Key
  | unsupported : Key
deriving DecidableEq

/-- Modelled from the spec: `Key::to_cmp_be_bytes` (called at lib.rs line 106)
returns the canonical comparison-preserving big-endian byte sequence, and
fails when "the key cannot be reduced to a canonical byte form". -/
def Key.to_cmp_be_bytes : Key → Except String (List (Fin 256))
  | .bytea bs => .ok bs
  | .unsupported => .error "key cannot be reduced to a canonical byte form"

/-- Modelled from the spec: the engine's key ordering.  The data model demands
"key ordering must match byte-lexicographic ordering of the encoding", so the
ordering is byte-lexicographic comparison of the canonical encodings. -/
def Key.engineLt (a b : Key) : Prop :=
  ∃ ba bb, a.to_cmp_be_bytes = .ok ba ∧ b.to_cmp_be_bytes = .ok bb ∧ ba < bb

/-- The engine's domain error type, restricted to the variants this adapter
produces.  `StorageMsg` appears in the source (lib.rs line 127); the
`EncodingError` and `SchemaParseError` kinds are modelled from the spec's
error taxonomy for the engine code not under `src/`. -/
inductive Error where
  | StorageMsg (msg : String)
  | EncodingError (msg : String)
  | SchemaParseError (ddl : String)
deriving DecidableEq

/-- Split a character list around the *last* occurrence of `c`:
`some (before, after)`, or `none` when `c` does not occur. -/
def splitOnLast (c : Char) : List Char → Option (List Char × List Char)
  | [] => none
  | x :: xs =>
    match splitOnLast c xs with
    | some (pre, suf) => some (x :: pre, suf)
    | none => if x = c then some ([], xs) else none

/-- File stem of a file name, per Rust `Path::file_stem`: the portion before
the last dot; a name whose only dot is a leading dot has no extension, so the
whole name is the stem. -/
def fileStem (name : List Char) : List Char :=
  match splitOnLast '.' name with
  | none => name
  | some ([], _) => name
  | some (pre, _) => pre

/-- Rust `PathBuf::push` on character lists: an absolute component replaces
the path; otherwise a `/` separator is inserted when one is needed. -/
def pushChars (p s : List Char) : List Char :=
  if s.head? = some '/' then s
  else if p = [] then s
  else if p.getLast? = some '/' then p ++ s
  else p ++ '/' :: s

/-- Rust `Path::with_extension` on character lists: replace the extension of
the final path component (an empty extension just removes the old one). -/
def withExtensionChars (p ext : List Char) : List Char :=
  let dotted : List Char := if ext = [] then [] else '.' :: ext
  match splitOnLast '/' p with
  | none => fileStem p ++ dotted
  | some (dir, name) => dir ++ '/' :: (fileStem name ++ dotted)

/-- `PathBuf::push` on strings. -/
def pathPush (p s : String) : String :=
  String.mk (pushChars p.data s.data)

/-- `Path::with_extension` on strings. -/
def withExtension (p ext : String) : String :=
  String.mk (withExtensionChars p.data ext.data)

/-- The connection configuration accumulated by the opendal `S3` builder,
restricted to the knobs `S3Storage::build` touches.  Each field records the
effect of the builder method of the same name (`http_client_user_agent`
records that `http_client(set_user_agent())` was applied). -/
structure S3Builder where
  http_client_user_agent : Bool
  bucket : String
  root : String
  region : Option String
  disable_config_load : Bool
  disable_ec2_metadata : Bool
  allow_anonymous : Bool
  endpoint : Option String
  server_side_encryption_with_s3_key : Bool
deriving DecidableEq

/-- `S3::default()`: no option set. -/
def S3.default : S3Builder :=
  { http_client_user_agent := false
    bucket := ""
    root := ""
    region := none
    disable_config_load := false
    disable_ec2_metadata := false
    allow_anonymous := false
    endpoint := none
    server_side_encryption_with_s3_key := false }

/-- An opendal `Operator` as produced at lib.rs lines 92-94: the finished
builder configuration wrapped in the logging layer. -/
structure Operator where
  builder : S3Builder
  logging_layer : Bool
deriving DecidableEq

/-- `S3Storage::build` (lib.rs lines 62-96).  `endpoint_resolver` is not under
`src/`; its exact behavior is an open question in the spec, so it is passed as
a parameter of the same shape (`(endpoint, use_ssl) -> Result<String>`).
The `prefix` parameter is named `pfx` (`prefix` is reserved in Lean). -/
def build (endpoint_resolver : String → Option Bool → Except String String)
    (bucket : String) (region : Option String) (pfx : String)
    (no_credentials : Bool) (endpoint : Option String)
    (use_ssl : Option Bool) (server_side_encryption : Option Bool) :
    Except String Operator := do
  let builder : S3Builder :=
    { S3.default with http_client_user_agent := true, bucket := bucket, root := pfx }
  let builder := match region with
    | some r => { builder with region := some r }
    | none => builder
  let builder := if no_credentials then
      { builder with
        disable_config_load := true
        disable_ec2_metadata := true
        allow_anonymous := true }
    else builder
  let builder ← match endpoint with
    | some ep => do
      let resolved ← endpoint_resolver ep use_ssl
      pure { builder with endpoint := some resolved }
    | none => pure builder
  let builder := if server_side_encryption.getD false then
      { builder with server_side_encryption_with_s3_key := true }
    else builder
  pure { builder := builder, logging_layer := true }

/-- The storage adapter (lib.rs lines 14-19).  The source's `prefix` field is
named `pfx` (`prefix` is reserved in Lean); `store: Arc<OpendalStore>` wraps
the built operator. -/
structure S3Storage where
  bucket : String
  pfx : String
  store : Operator
deriving DecidableEq

/-- `S3Storage::path` (lib.rs lines 98-102): root prefix plus one table-name
segment.  (The source body reads a field spelled `self.path`; the struct's
only path-valued field is its prefix.) -/
def S3Storage.path (st : S3Storage) (table_name : String) : String :=
  pathPush st.pfx table_name

/-- `S3Storage::data_path` (lib.rs lines 104-112): table path, plus the
lowercase-hex token of the key's canonical big-endian bytes, with the fixed
extension `ron`.  A key-encoding failure propagates via `?`. -/
def S3Storage.data_path (st : S3Storage) (table_name : String) (key : Key) :
    Except Error String :=
  match key.to_cmp_be_bytes with
  | .error e => .error (Error.EncodingError e)
  | .ok bytes =>
    .ok (withExtension (pathPush (st.path table_name) (String.mk (encode_hex bytes))) "ron")

/-- The opendal `ErrorKind`s relevant to the adapter (lib.rs line 50 compares
the probe error's kind against `ErrorKind::NotFound`). -/
inductive ErrorKind where
  | NotFound
  | PermissionDenied
  | Unexpected
deriving DecidableEq

/-- An opendal error: a kind plus a human-readable description (`ToString`). -/
structure OpError where
  kind : ErrorKind
  msg : String
deriving DecidableEq

/-- The human-readable description of an opendal error (`e.to_string()`). -/
def OpError.toMsg (e : OpError) : String := e.msg

/-- `ResultExt::map_storage_err` (lib.rs lines 121-129): stringify the error
(`E: ToString` becomes the `to_string` parameter), then wrap the text in
`Error::StorageMsg`. -/
def map_storage_err {T E : Type} (to_string : E → String) (r : Except E T) :
    Except Error T :=
  (r.mapError to_string).mapError Error.StorageMsg

/-- The engine's `Schema` type is out of scope; it is kept opaque as a wrapper
around the DDL text it was parsed from. -/
structure Schema where
  ddl : String
deriving DecidableEq

/-- Modelled from the spec: `Schema::from_ddl` is engine code not under
`src/`.  It "parses the DDL text into a Schema; parse failure signals
`SchemaParseError` distinct from storage-layer failure".  The DDL grammar
itself is opaque and passed as `parse`. -/
def Schema.from_ddl (parse : String → Option Schema) (data : String) :
    Except Error Schema :=
  match parse data with
  | some s => .ok s
  | none => .error (Error.SchemaParseError data)

/-- `S3Storage::fetch_schema` (lib.rs lines 114-118): the connection read
`self.store.read(path)` is abstracted by its outcome `read_result`; a read
failure goes through `map_storage_err`, then the data is parsed by
`Schema::from_ddl`. -/
def S3Storage.fetch_schema (parse : String → Option Schema)
    (read_result : Except OpError String) : Except Error Schema :=
  (map_storage_err OpError.toMsg read_result).bind (Schema.from_ddl parse)

/-- Outcomes of the two connection calls `S3Storage::new` issues against the
store: `stat(prefix)` and `create_dir(prefix)`. -/
structure StoreOps where
  stat_result : Except OpError Unit
  create_dir_result : Except OpError Unit

/-- Errors surfaced by `S3Storage::new`: a connection-build failure or a
store-operation failure. -/
inductive NewError where
  | Config (msg : String)
  | Op (e : OpError)
deriving DecidableEq

/-- `S3Storage::new` (lib.rs lines 28-60), paired with the number of
`create_dir` calls issued.  Mirrors lines 49-53 exactly: when `stat` fails
with `NotFound`, `create_dir` is called once and its failure propagates via
`?`; when `stat` fails with any other kind, the `if` body is skipped and
construction falls through to `Ok`; when `stat` succeeds nothing happens. -/
def S3Storage.new (endpoint_resolver : String → Option Bool → Except String String)
    (bucket : String) (region : Option String) (pfx : String)
    (no_credentials : Bool) (endpoint : Option String)
    (use_ssl : Option Bool) (server_side_encryption : Option Bool)
    (store : StoreOps) : Except NewError S3Storage × Nat :=
  match build endpoint_resolver bucket region pfx no_credentials endpoint use_ssl
      server_side_encryption with
  | .error e => (.error (NewError.Config e), 0)
  | .ok op =>
    let made : S3Storage := { bucket := bucket, pfx := pfx, store := op }
    match store.stat_result with
    | .error e =>
      if e.kind = ErrorKind.NotFound then
        match store.create_dir_result with
        | .error e2 => (.error (NewError.Op e2), 1)
        | .ok _ => (.ok made, 1)
      else
        (.ok made, 0)
    | .ok _ => (.ok made, 0)

/-- The sixteen lowercase hex characters a key token may contain. -/
def hexAlphabet : List Char :=
  "0123456789abcdef".data

/-- Proof helper: the part of a row path that precedes the key token. -/
def pathHead (base : List Char) : List Char :=
  if base = [] then [] else if base.getLast? = some '/' then base else base ++ ['/']

/-- Concrete operator produced by `build` with `no_credentials = true` for the witnesses. -/
def opAnon : Operator :=
  { builder :=
    { S3.default with
      http_client_user_agent := true
      bucket := "data"
      root := "/warehouse"
      disable_config_load := true
      disable_ec2_metadata := true
      allow_anonymous := true }
    logging_layer := true }

/-- Concrete operator produced by `build` with `server_side_encryption = some true`. -/
def opSse : Operator :=
  { builder :=
    { S3.default with
      http_client_user_agent := true
      bucket := "data"
      root := "/warehouse"
      server_side_encryption_with_s3_key := true }
    logging_layer := true }

theorem hexDigit_lt_of_lt : ∀ m n : Fin 16, m < n → hexDigit m.val < hexDigit n.val := by decide

theorem hexDigit_inj16 : ∀ m n : Fin 16, hexDigit m.val = hexDigit n.val → m = n := by decide

theorem hexDigit_mem16 : ∀ n : Fin 16, hexDigit n.val ∈ hexAlphabet := by decide

theorem hexAlphabet_no_sep : ∀ c ∈ hexAlphabet, c ≠ '.' ∧ c ≠ '/' := by decide

theorem byteHex_head_cases (a b : Fin 256) (h : a < b) :
    hexDigit (a.val / 16) < hexDigit (b.val / 16) ∨
      (a.val / 16 = b.val / 16 ∧ hexDigit (a.val % 16) < hexDigit (b.val % 16)) := by
  have ha := a.isLt
  have hb := b.isLt
  have hv : a.val < b.val := h
  rcases Nat.lt_or_ge (a.val / 16) (b.val / 16) with hd | hd
  · exact Or.inl (hexDigit_lt_of_lt ⟨a.val / 16, by omega⟩ ⟨b.val / 16, by omega⟩ hd)
  · have he : a.val / 16 = b.val / 16 := le_antisymm (Nat.div_le_div_right hv.le) hd
    have hm : a.val % 16 < b.val % 16 := by omega
    exact Or.inr ⟨he, hexDigit_lt_of_lt ⟨a.val % 16, by omega⟩ ⟨b.val % 16, by omega⟩ hm⟩

theorem char_cons_lt_cons (c : Char) {l1 l2 : List Char} (h : l1 < l2) :
    (c :: l1) < (c :: l2) :=
  List.Lex.cons h

theorem encode_hex_cons (b : Fin 256) (bs : List (Fin 256)) :
    encode_hex (b :: bs) = hexDigit (b.val / 16) :: hexDigit (b.val % 16) :: encode_hex bs := rfl

theorem encode_hex_preserves_lt : ∀ {xs ys : List (Fin 256)}, xs < ys → encode_hex xs < encode_hex ys := by
  intro xs ys h
  induction h with
  | nil => exact List.Lex.nil
  | cons hrec ih =>
    rename_i a as bs
    rw [encode_hex_cons, encode_hex_cons]
    exact List.Lex.cons (List.Lex.cons ih)
  | rel hab =>
    rename_i a as b bs
    rw [encode_hex_cons, encode_hex_cons]
    rcases byteHex_head_cases a b hab with h1 | ⟨he, h2⟩
    · exact List.Lex.rel h1
    · rw [he]
      exact List.Lex.cons (List.Lex.rel h2)

theorem encode_hex_length (bs : List (Fin 256)) : (encode_hex bs).length = 2 * bs.length := by
  induction bs with
  | nil => rfl
  | cons b bs ih =>
    rw [encode_hex_cons]
    simp [ih]
    omega

theorem encode_hex_mem {c : Char} : ∀ {bs : List (Fin 256)}, c ∈ encode_hex bs → c ∈ hexAlphabet := by
  intro bs
  induction bs with
  | nil => intro h; simp [encode_hex] at h
  | cons b bs ih =>
    intro h
    rw [encode_hex_cons] at h
    have hb := b.isLt
    rcases List.mem_cons.mp h with h | h
    · exact h ▸ hexDigit_mem16 ⟨b.val / 16, by omega⟩
    rcases List.mem_cons.mp h with h | h
    · exact h ▸ hexDigit_mem16 ⟨b.val % 16, by omega⟩
    exact ih h

theorem encode_hex_no_slash (bs : List (Fin 256)) : '/' ∉ encode_hex bs :=
  fun h => (hexAlphabet_no_sep _ (encode_hex_mem h)).2 rfl

theorem encode_hex_no_dot (bs : List (Fin 256)) : '.' ∉ encode_hex bs :=
  fun h => (hexAlphabet_no_sep _ (encode_hex_mem h)).1 rfl

theorem encode_hex_inj : ∀ {xs ys : List (Fin 256)}, encode_hex xs = encode_hex ys → xs = ys := by
  intro xs
  induction xs with
  | nil =>
    intro ys h
    cases ys with
    | nil => rfl
    | cons y ys => rw [encode_hex_cons] at h; exact absurd h (by simp [encode_hex])
  | cons x xs ih =>
    intro ys h
    cases ys with
    | nil => rw [encode_hex_cons] at h; exact absurd h (by simp [encode_hex])
    | cons y ys =>
      rw [encode_hex_cons, encode_hex_cons] at h
      obtain ⟨h1, h2, h3⟩ : hexDigit (x.val / 16) = hexDigit (y.val / 16) ∧
          hexDigit (x.val % 16) = hexDigit (y.val % 16) ∧ encode_hex xs = encode_hex ys := by
        simpa using h
      have hx := x.isLt
      have hy := y.isLt
      have e1 : x.val / 16 = y.val / 16 :=
        congrArg Fin.val (hexDigit_inj16 ⟨x.val / 16, by omega⟩ ⟨y.val / 16, by omega⟩ h1)
      have e2 : x.val % 16 = y.val % 16 :=
        congrArg Fin.val (hexDigit_inj16 ⟨x.val % 16, by omega⟩ ⟨y.val % 16, by omega⟩ h2)
      have exy : x = y := Fin.ext (by omega)
      rw [exy, ih h3]

theorem splitOnLast_of_not_mem {c : Char} : ∀ {l : List Char}, c ∉ l → splitOnLast c l = none := by
  intro l
  induction l with
  | nil => intro _; rfl
  | cons x xs ih =>
    intro h
    have hx : ¬ x = c := fun e => h (by rw [e]; exact List.mem_cons_self c xs)
    have hxs : c ∉ xs := fun hm => h (List.mem_cons_of_mem _ hm)
    simp [splitOnLast, ih hxs, hx]

theorem splitOnLast_append {c : Char} {name : List Char} (h : c ∉ name) :
    ∀ dir : List Char, splitOnLast c (dir ++ c :: name) = some (dir, name) := by
  intro dir
  induction dir with
  | nil => simp [splitOnLast, splitOnLast_of_not_mem h]
  | cons x xs ih => simp [splitOnLast, ih]

theorem fileStem_of_no_dot {name : List Char} (h : '.' ∉ name) : fileStem name = name := by
  simp [fileStem, splitOnLast_of_not_mem h]

theorem getLast?_decomp {l : List Char} {c : Char} (h : l.getLast? = some c) :
    l.dropLast ++ [c] = l := by
  have hne : l ≠ [] := by intro e; rw [e] at h; simp at h
  have h2 : l.getLast hne = c := by
    have h3 := List.getLast?_eq_getLast l hne
    rw [h3] at h
    exact Option.some.inj h
  rw [← h2]
  exact List.dropLast_append_getLast hne

theorem withExt_append {dir name : List Char} (h1 : '/' ∉ name) (h2 : '.' ∉ name) :
    withExtensionChars (dir ++ '/' :: name) ['r', 'o', 'n'] =
      dir ++ '/' :: (name ++ ['.', 'r', 'o', 'n']) := by
  rw [withExtensionChars]
  simp only [splitOnLast_append h1]
  simp [fileStem_of_no_dot h2]

theorem withExt_nosep {name : List Char} (h1 : '/' ∉ name) (h2 : '.' ∉ name) :
    withExtensionChars name ['r', 'o', 'n'] = name ++ ['.', 'r', 'o', 'n'] := by
  rw [withExtensionChars]
  simp only [splitOnLast_of_not_mem h1]
  simp [fileStem_of_no_dot h2]

theorem data_path_shape (base hex : List Char) (h1 : '/' ∉ hex) (h2 : '.' ∉ hex) :
    withExtensionChars (pushChars base hex) ['r', 'o', 'n'] =
      pathHead base ++ (hex ++ '.' :: ['r', 'o', 'n']) := by
  have hhead : ¬ hex.head? = some '/' := by
    cases hex with
    | nil => simp
    | cons a l =>
      simp only [List.head?_cons, Option.some.injEq]
      intro e
      exact h1 (by rw [e]; exact List.mem_cons_self '/' l)
  by_cases hb : base = []
  · subst hb
    rw [pushChars, if_neg hhead, if_pos rfl, withExt_nosep h1 h2, pathHead]
    simp
  · by_cases hl : base.getLast? = some '/'
    · have hdecomp := getLast?_decomp hl
      rw [pushChars, if_neg hhead, if_neg hb, if_pos hl]
      conv_lhs => rw [← hdecomp, List.append_assoc, List.singleton_append]
      rw [withExt_append h1 h2, pathHead, if_neg hb, if_pos hl]
      conv_rhs => rw [← hdecomp]
      simp
    · rw [pushChars, if_neg hhead, if_neg hb, if_neg hl]
      have : base ++ '/' :: hex = base ++ '/' :: hex := rfl
      rw [withExt_append h1 h2, pathHead, if_neg hb, if_neg hl]
      simp

/-- Claim C2: for every pair of row keys that both encode successfully, if the
first is below the second under the engine's key ordering, then the lowercase
hex string of the first key's canonical big-endian byte encoding is
lexicographically smaller, under plain string comparison, than that of the
second. -/
theorem key_lt_implies_hex_token_lt (a b : Key) (ba bb : List (Fin 256))
    (ha : a.to_cmp_be_bytes = .ok ba) (hb : b.to_cmp_be_bytes = .ok bb)
    (h : Key.engineLt a b) :
    String.mk (encode_hex ba) < String.mk (encode_hex bb) := by
  obtain ⟨ba', bb', ha', hb', hlt⟩ := h
  rw [ha] at ha'
  rw [hb] at hb'
  have e1 : ba = ba' := Except.ok.inj ha'
  have e2 : bb = bb' := Except.ok.inj hb'
  rw [e1, e2]
  exact String.lt_iff_toList_lt.mpr (encode_hex_preserves_lt hlt)

theorem key_lt_implies_hex_token_lt_witness :
    String.mk (encode_hex [(0 : Fin 256)]) < String.mk (encode_hex [(1 : Fin 256)]) :=
  key_lt_implies_hex_token_lt (Key.bytea [0]) (Key.bytea [1]) [0] [1] rfl rfl
    ⟨[0], [1], rfl, rfl, by decide⟩

/-- Claim C3: for an adapter with prefix `/warehouse`, `data_path` on table
`orders` and a key whose canonical big-endian byte encoding is `[0x00, 0x01]`
returns `/warehouse/orders/0001.ron` (hex key token plus the fixed `ron`
row-serialization extension). -/
theorem data_path_scenario1 :
    S3Storage.data_path ⟨"data", "/warehouse", ⟨S3.default, true⟩⟩ "orders" (Key.bytea [0, 1]) =
      .ok "/warehouse/orders/0001.ron" := rfl

/-- Claim C10: for a fixed table, keys with different canonical byte
encodings get different row paths from `data_path`; moreover the key token
consists only of lowercase hex characters and is exactly twice as long as the
byte encoding, so it can never equal a reserved filename containing a non-hex
character. -/
theorem data_path_key_token_injective (st : S3Storage) (table : String)
    (k1 k2 : Key) (b1 b2 : List (Fin 256)) (p1 p2 : String)
    (h1 : k1.to_cmp_be_bytes = .ok b1) (h2 : k2.to_cmp_be_bytes = .ok b2)
    (hne : b1 ≠ b2)
    (hp1 : st.data_path table k1 = .ok p1) (hp2 : st.data_path table k2 = .ok p2) :
    p1 ≠ p2 ∧ (∀ c ∈ encode_hex b1, c ∈ hexAlphabet) ∧
      (encode_hex b1).length = 2 * b1.length := by
  refine ⟨?_, fun c hc => encode_hex_mem hc, encode_hex_length b1⟩
  rw [S3Storage.data_path, h1] at hp1
  rw [S3Storage.data_path, h2] at hp2
  have hv1 : withExtension (pathPush (st.path table) (String.mk (encode_hex b1))) "ron" = p1 :=
    Except.ok.inj hp1
  have hv2 : withExtension (pathPush (st.path table) (String.mk (encode_hex b2))) "ron" = p2 :=
    Except.ok.inj hp2
  intro heq
  apply hne
  apply encode_hex_inj
  have hd : withExtensionChars (pushChars (st.path table).data (encode_hex b1)) ['r', 'o', 'n'] =
      withExtensionChars (pushChars (st.path table).data (encode_hex b2)) ['r', 'o', 'n'] := by
    have := congrArg String.data (hv1.trans (heq.trans hv2.symm))
    exact this
  rw [data_path_shape _ _ (encode_hex_no_slash b1) (encode_hex_no_dot b1),
    data_path_shape _ _ (encode_hex_no_slash b2) (encode_hex_no_dot b2)] at hd
  have hd2 := List.append_cancel_left hd
  exact List.append_cancel_right hd2

theorem data_path_key_token_injective_witness :
    ("/warehouse/orders/00.ron" : String) ≠ "/warehouse/orders/01.ron" ∧
      (∀ c ∈ encode_hex [(0 : Fin 256)], c ∈ hexAlphabet) ∧
      (encode_hex [(0 : Fin 256)]).length = 2 * ([(0 : Fin 256)] : List (Fin 256)).length :=
  data_path_key_token_injective ⟨"data", "/warehouse", ⟨S3.default, true⟩⟩ "orders"
    (Key.bytea [0]) (Key.bytea [1]) [0] [1] "/warehouse/orders/00.ron" "/warehouse/orders/01.ron"
    rfl rfl (by decide) rfl rfl

/-- Claim C5: `map_storage_err` wraps every failure that exposes only a
human-readable description into the engine's domain error under the single
`StorageMsg` variant carrying exactly that description, and every error it
emits is such a `StorageMsg`; no raw connection-layer error value crosses the
boundary. -/
theorem map_storage_err_flattens {T E : Type} (to_string : E → String) (r : Except E T) :
    (∀ e, r = .error e → map_storage_err to_string r = .error (Error.StorageMsg (to_string e))) ∧
    (∀ err, map_storage_err to_string r = .error err → ∃ msg, err = Error.StorageMsg msg) := by
  constructor
  · intro e he
    rw [he]
    rfl
  · intro err herr
    cases r with
    | ok t => exact absurd herr (by simp [map_storage_err, Except.mapError])
    | error e =>
      refine ⟨to_string e, ?_⟩
      have : (Except.error (Error.StorageMsg (to_string e)) : Except Error T) = .error err := herr
      exact (Except.error.inj this).symm

theorem map_storage_err_flattens_witness :
    map_storage_err id (Except.error "boom" : Except String Nat) =
      .error (Error.StorageMsg "boom") :=
  (map_storage_err_flattens id (Except.error "boom")).1 "boom" rfl

/-- Claim C6: `fetch_schema` maps any read failure (including an absent
schema object) through the error translator into a storage-layer `StorageMsg`
error, which is distinct from any successful result; a parse failure on
successfully read DDL text signals `SchemaParseError`, distinct from the
storage-layer failure kind; successfully parsed DDL yields the schema. -/
theorem fetch_schema_error_translation (parse : String → Option Schema)
    (read_result : Except OpError String) :
    (∀ e, read_result = .error e →
      S3Storage.fetch_schema parse read_result = .error (Error.StorageMsg e.msg) ∧
        ∀ s, S3Storage.fetch_schema parse read_result ≠ .ok s) ∧
    (∀ data, read_result = .ok data → parse data = none →
      S3Storage.fetch_schema parse read_result = .error (Error.SchemaParseError data) ∧
        ∀ msg, Error.SchemaParseError data ≠ Error.StorageMsg msg) ∧
    (∀ data s, read_result = .ok data → parse data = some s →
      S3Storage.fetch_schema parse read_result = .ok s) := by
  refine ⟨?_, ?_, ?_⟩
  · intro e he
    rw [he]
    exact ⟨rfl, fun s h => Except.noConfusion h⟩
  · intro data hd hp
    rw [hd]
    constructor
    · simp [S3Storage.fetch_schema, map_storage_err, Except.mapError, Except.bind, Schema.from_ddl, hp]
    · exact fun msg h => Error.noConfusion h
  · intro data s hd hp
    rw [hd]
    simp [S3Storage.fetch_schema, map_storage_err, Except.mapError, Except.bind, Schema.from_ddl, hp]

theorem fetch_schema_error_translation_witness :
    S3Storage.fetch_schema (fun _ => none) (.error ⟨ErrorKind.NotFound, "no schema"⟩) =
      .error (Error.StorageMsg "no schema") :=
  ((fetch_schema_error_translation (fun _ => none)
    (.error ⟨ErrorKind.NotFound, "no schema"⟩)).1 ⟨ErrorKind.NotFound, "no schema"⟩ rfl).1

/-- Claim C1, counterexample: with the stat probe failing with kind
`PermissionDenied`, `S3Storage::new` nevertheless succeeds, issuing no
creation call and surfacing no error — refuting the claim that any
non-not-found probe failure is fatal to construction. -/
theorem new_succeeds_on_permission_denied_probe :
    S3Storage.new (fun e _ => .ok e) "data" none "/warehouse" false none none none
      ⟨.error ⟨ErrorKind.PermissionDenied, "permission denied"⟩, .ok ()⟩ =
      (.ok ⟨"data", "/warehouse",
        ⟨{ S3.default with http_client_user_agent := true, bucket := "data", root := "/warehouse" }, true⟩⟩, 0) := rfl

/-- Claim C1 (amended): when the existence probe of the root prefix fails
with any error kind other than not-found, `S3Storage::new` silently ignores
the error: no directory-creation call is issued and construction succeeds
with the built adapter (lib.rs lines 49-53 have no else branch, so the error
is dropped and control falls through to `Ok`). -/
theorem new_ignores_non_notfound_probe_error
    (er : String → Option Bool → Except String String)
    (bucket : String) (region : Option String) (pfx : String) (nc : Bool)
    (endpoint : Option String) (use_ssl : Option Bool) (sse : Option Bool)
    (op : Operator) (store : StoreOps) (e : OpError)
    (hb : build er bucket region pfx nc endpoint use_ssl sse = .ok op)
    (hs : store.stat_result = .error e) (hk : e.kind ≠ ErrorKind.NotFound) :
    S3Storage.new er bucket region pfx nc endpoint use_ssl sse store =
      (.ok ⟨bucket, pfx, op⟩, 0) := by
  simp [S3Storage.new, hb, hs, hk]

theorem new_ignores_non_notfound_probe_error_witness :
    S3Storage.new (fun e _ => .ok e) "data" none "/warehouse" false none none none
      ⟨.error ⟨ErrorKind.PermissionDenied, "permission denied"⟩, .ok ()⟩ =
      (.ok ⟨"data", "/warehouse",
        ⟨{ S3.default with http_client_user_agent := true, bucket := "data", root := "/warehouse" }, true⟩⟩, 0) :=
  new_ignores_non_notfound_probe_error _ "data" none "/warehouse" false none none none
    _ _ ⟨ErrorKind.PermissionDenied, "permission denied"⟩ rfl rfl (by decide)

/-- Claim C7: when the existence probe reports not-found, `S3Storage::new`
issues exactly one directory-creation call, and if that call succeeds,
construction yields the adapter. -/
theorem new_notfound_probe_creates_once
    (er : String → Option Bool → Except String String)
    (bucket : String) (region : Option String) (pfx : String) (nc : Bool)
    (endpoint : Option String) (use_ssl : Option Bool) (sse : Option Bool)
    (op : Operator) (store : StoreOps) (e : OpError)
    (hb : build er bucket region pfx nc endpoint use_ssl sse = .ok op)
    (hs : store.stat_result = .error e) (hk : e.kind = ErrorKind.NotFound) :
    (S3Storage.new er bucket region pfx nc endpoint use_ssl sse store).2 = 1 ∧
      (store.create_dir_result = .ok () →
        (S3Storage.new er bucket region pfx nc endpoint use_ssl sse store).1 =
          .ok ⟨bucket, pfx, op⟩) := by
  constructor
  · cases hc : store.create_dir_result <;> simp [S3Storage.new, hb, hs, hk, hc]
  · intro hc
    simp [S3Storage.new, hb, hs, hk, hc]

theorem new_notfound_probe_creates_once_witness :
    (S3Storage.new (fun e _ => .ok e) "data" none "/warehouse" false none none none
      ⟨.error ⟨ErrorKind.NotFound, "missing"⟩, .ok ()⟩).2 = 1 ∧
      ((⟨.error ⟨ErrorKind.NotFound, "missing"⟩, .ok ()⟩ : StoreOps).create_dir_result = .ok () →
        (S3Storage.new (fun e _ => .ok e) "data" none "/warehouse" false none none none
          ⟨.error ⟨ErrorKind.NotFound, "missing"⟩, .ok ()⟩).1 =
          .ok ⟨"data", "/warehouse",
            ⟨{ S3.default with http_client_user_agent := true, bucket := "data", root := "/warehouse" }, true⟩⟩) :=
  new_notfound_probe_creates_once _ "data" none "/warehouse" false none none none
    _ _ ⟨ErrorKind.NotFound, "missing"⟩ rfl rfl rfl

/-- Claim C8: when the existence probe succeeds, `S3Storage::new` issues no
directory-creation call and construction succeeds with the built adapter. -/
theorem new_existing_root_no_create
    (er : String → Option Bool → Except String String)
    (bucket : String) (region : Option String) (pfx : String) (nc : Bool)
    (endpoint : Option String) (use_ssl : Option Bool) (sse : Option Bool)
    (op : Operator) (store : StoreOps)
    (hb : build er bucket region pfx nc endpoint use_ssl sse = .ok op)
    (hs : store.stat_result = .ok ()) :
    S3Storage.new er bucket region pfx nc endpoint use_ssl sse store =
      (.ok ⟨bucket, pfx, op⟩, 0) := by
  simp [S3Storage.new, hb, hs]

theorem new_existing_root_no_create_witness :
    S3Storage.new (fun e _ => .ok e) "data" none "/warehouse" false none none none
      ⟨.ok (), .ok ()⟩ =
      (.ok ⟨"data", "/warehouse",
        ⟨{ S3.default with http_client_user_agent := true, bucket := "data", root := "/warehouse" }, true⟩⟩, 0) :=
  new_existing_root_no_create _ "data" none "/warehouse" false none none none _ _ rfl rfl

theorem build_ok_fields
    (er : String → Option Bool → Except String String)
    (bucket : String) (region : Option String) (pfx : String) (nc : Bool)
    (endpoint : Option String) (use_ssl : Option Bool) (sse : Option Bool)
    (op : Operator)
    (h : build er bucket region pfx nc endpoint use_ssl sse = .ok op) :
    op.builder.disable_config_load = nc ∧
      op.builder.disable_ec2_metadata = nc ∧
      op.builder.allow_anonymous = nc ∧
      op.builder.server_side_encryption_with_s3_key = sse.getD false ∧
      op.logging_layer = true := by
  cases endpoint with
  | none =>
    cases nc <;> rcases region with - | r <;> cases hs : sse.getD false <;>
      simp [build, hs, pure, Except.pure, bind, Except.bind] at h <;> simp [← h, S3.default]
  | some ep =>
    cases her : er ep use_ssl with
    | error e => cases nc <;> rcases region with - | r <;> simp [build, her] at h
    | ok resolved =>
      cases nc <;> rcases region with - | r <;> cases hs : sse.getD false <;>
        simp [build, her, hs, pure, Except.pure, bind, Except.bind] at h <;> simp [← h, S3.default]

/-- Claim C4: with `no_credentials = true`, the configuration produced by
`build` has ambient credential-configuration loading disabled,
instance-metadata credential probing disabled, and anonymous requests
allowed; with `no_credentials = false`, none of the three is applied. -/
theorem build_no_credentials_anonymous_mode
    (er : String → Option Bool → Except String String)
    (bucket : String) (region : Option String) (pfx : String)
    (endpoint : Option String) (use_ssl : Option Bool) (sse : Option Bool) :
    (∀ op, build er bucket region pfx true endpoint use_ssl sse = .ok op →
      op.builder.disable_config_load = true ∧ op.builder.disable_ec2_metadata = true ∧
        op.builder.allow_anonymous = true) ∧
    (∀ op, build er bucket region pfx false endpoint use_ssl sse = .ok op →
      op.builder.disable_config_load = false ∧ op.builder.disable_ec2_metadata = false ∧
        op.builder.allow_anonymous = false) := by
  constructor <;> intro op hop <;>
    obtain ⟨h1, h2, h3, -, -⟩ := build_ok_fields _ _ _ _ _ _ _ _ _ hop <;>
    exact ⟨h1, h2, h3⟩

theorem build_no_credentials_anonymous_mode_witness :
    opAnon.builder.disable_config_load = true ∧ opAnon.builder.disable_ec2_metadata = true ∧
      opAnon.builder.allow_anonymous = true :=
  (build_no_credentials_anonymous_mode (fun e _ => .ok e) "data" none "/warehouse" none none none).1
    opAnon rfl

/-- Claim C9: omitting `server_side_encryption` behaves identically to
passing `some false`, and the built configuration enables provider-managed
server-side encryption exactly when `some true` was passed. -/
theorem build_sse_none_equals_some_false
    (er : String → Option Bool → Except String String)
    (bucket : String) (region : Option String) (pfx : String) (nc : Bool)
    (endpoint : Option String) (use_ssl : Option Bool) :
    build er bucket region pfx nc endpoint use_ssl none =
        build er bucket region pfx nc endpoint use_ssl (some false) ∧
      ∀ sse op, build er bucket region pfx nc endpoint use_ssl sse = .ok op →
        (op.builder.server_side_encryption_with_s3_key = true ↔ sse = some true) := by
  constructor
  · rfl
  · intro sse op hop
    obtain ⟨-, -, -, h4, -⟩ := build_ok_fields _ _ _ _ _ _ _ _ _ hop
    rw [h4]
    rcases sse with - | b
    · simp
    · cases b <;> simp

theorem build_sse_none_equals_some_false_witness :
    (opSse.builder.server_side_encryption_with_s3_key = true ↔
      (some true : Option Bool) = some true) :=
  (build_sse_none_equals_some_false (fun e _ => .ok e) "data" none "/warehouse" false none none).2
    (some true) opSse rfl
